import Mathlib

set_option maxRecDepth 100000

/-!
Verification of the cbt Rust-to-C bindings generator (src/lib.rs).

The program walks a parsed Rust syntax tree (`syn::Item` list) and emits two
texts: a C header and a Rust `extern "C"` wrapper source.  We embed the
generator shallowly: `syn` syntax nodes become inductive types carrying
exactly the components the generator reads, strings are Lean `String`s, and
the file system consulted for external modules becomes an explicit map from
path strings to file results.  The two `expect` panics (unreadable module
file, unparsable module file) become `Except` errors.  The recursion of
`generate_c_api_and_rust_exports` is bounded by an explicit `fuel` parameter
(the source recursion is unbounded through module files on disk); fuel is
consumed once per module entered, and theorems quantify over sufficient fuel.
-/

namespace Cbt

/-- Model of convert_case's `to_case(Case::Snake)` (used for crate, module
and struct names): delimiters (`_`, `-`, space) become `_`, an uppercase
letter after a lowercase letter or digit opens a new word, an uppercase
letter followed by a lowercase letter after an uppercase letter opens a new
word (acronym boundary), and everything is lowercased. -/
def snakeAux : Option Char → List Char → List Char
  | _, [] => []
  | prev, c :: rest =>
    if c = '_' ∨ c = '-' ∨ c = ' ' then
      '_' :: snakeAux none rest
    else if c.isUpper then
      match prev with
      | some p =>
        if p.isLower ∨ p.isDigit then
          '_' :: c.toLower :: snakeAux (some c) rest
        else if p.isUpper && (match rest with
            | r :: _ => r.isLower
            | [] => false) then
          '_' :: c.toLower :: snakeAux (some c) rest
        else
          c.toLower :: snakeAux (some c) rest
      | none => c.toLower :: snakeAux (some c) rest
    else
      c.toLower :: snakeAux (some c) rest

/-- `s.to_case(Case::Snake)` from the convert_case crate. -/
def snakeCase (s : String) : String :=
  ⟨snakeAux none s.data⟩

/-- The slice of `syn::Type` the generator inspects: a path type is reduced
to the identifier of its first segment (`path.segments.first().ident`), a
reference type keeps its element type, and every other constructor of
`syn::Type` is `other` (the generator treats them all alike). -/
inductive RType where
  | path (ident : String)
  | reference (elem : RType)
  | other
deriving DecidableEq, Repr

/-- `syn::Visibility` as the generator reads it: `Visibility::Public(_)`
versus anything else (`Restricted` or `Inherited`). -/
inductive Vis where
  | pub
  | other
deriving DecidableEq, Repr

/-- One entry of `sig.inputs`: `FnArg::Receiver` is skipped by the
generator; `FnArg::Typed` carries the rendering of its pattern
(`quote! { #pat }.to_string()`) and its type. -/
inductive FnArg where
  | receiver
  | typed (name : String) (ty : RType)
deriving DecidableEq, Repr

/-- A `syn::Field`: the generator reads only the optional identifier and the
type (field visibility is never consulted by `generate_c_struct_field`). -/
structure StructField where
  ident : Option String
  ty : RType
deriving DecidableEq, Repr

/-- The slice of `syn::Item` the traversal dispatches on.  `Item::Fn`
carries visibility, name, inputs and return type (`none` models
`ReturnType::Default`); `Item::Mod` carries visibility, name and an optional
inline body; `Item::Struct` carries visibility, name and fields; every other
item kind falls into the `_ => {}` arm of the traversal. -/
inductive Item where
  | fn (vis : Vis) (name : String) (inputs : List FnArg) (output : Option RType)
  | mod (vis : Vis) (name : String) (content : Option (List Item))
  | structItem (vis : Vis) (name : String) (fields : List StructField)
  | otherItem

/-- is_public_function from src/lib.rs: public, or inherited from a public
module. -/
def is_public_function (vis : Vis) (parent_public : Bool) : Bool :=
  match vis with
  | .pub => true
  | .other => parent_public

/-- is_public_struct from src/lib.rs: public, or inherited from a public
module. -/
def is_public_struct (vis : Vis) (parent_public : Bool) : Bool :=
  match vis with
  | .pub => true
  | .other => parent_public

/-- is_public_mod from src/lib.rs: only the module's own marker counts; the
inherited flag is not consulted. -/
def is_public_mod (vis : Vis) : Bool :=
  match vis with
  | .pub => true
  | .other => false

/-- rust_type_to_c from src/lib.rs: maps a Rust type to its C header type.
Note that `Vec` and `Option` are special-cased to `void*`, every other path
type falls back to `<ident>*`, and every non-path type (references
included) falls back to `void*`. -/
def rust_type_to_c : RType → String
  | .path ident =>
    if ident = "i32" then "int"
    else if ident = "f64" then "double"
    else if ident = "u32" then "unsigned int"
    else if ident = "bool" then "bool"
    else if ident = "String" then "char*"
    else if ident = "Vec" then "void*"
    else if ident = "Option" then "void*"
    else ident ++ "*"
  | _ => "void*"

/-- rust_type_to_rust_extern_c from src/lib.rs: maps a Rust type to the type
used in the generated wrapper signature.  The `cor:::ffi` typo in the `Vec`
arm is reproduced from the source.  Non-path types map to `void`. -/
def rust_type_to_rust_extern_c : RType → String
  | .path ident =>
    if ident = "i32" then "i32"
    else if ident = "f64" then "f64"
    else if ident = "u32" then "u32"
    else if ident = "bool" then "bool"
    else if ident = "String" then "*mut core::ffi::c_char"
    else if ident = "Vec" then "*mut cor:::ffi::c_void"
    else if ident = "Option" then "*mut core::ffi::c_void"
    else ident
  | _ => "void"

/-- The Argument struct from src/lib.rs. -/
structure Argument where
  name : String
  ty : RType
  c_ty : String
  extern_c_ty : String
deriving DecidableEq, Repr

/-- Construction of one Argument from a typed input, as done in the loop at
the top of generate_c_binding_and_rust_wrapper. -/
def mkArgument (name : String) (ty : RType) : Argument :=
  { name := name, ty := ty,
    c_ty := rust_type_to_c ty,
    extern_c_ty := rust_type_to_rust_extern_c ty }

/-- The argument-collection loop of generate_c_binding_and_rust_wrapper:
`FnArg::Typed` inputs become Arguments, receivers are skipped. -/
def collectArgs : List FnArg → List Argument
  | [] => []
  | .receiver :: rest => collectArgs rest
  | .typed n t :: rest => mkArgument n t :: collectArgs rest

/-- The per-argument conversion statement pushed into the wrapper body.  A
reference whose element is the path type `str` gets the borrowed `CStr`
view; a reference to any non-path type gets a transmute; a reference to any
other path type gets no statement at all (the source pushes nothing in that
arm); the path type `String` gets the copying `to_string_lossy` conversion;
every other type gets a transmute. -/
def conversionLine (arg : Argument) : String :=
  match arg.ty with
  | .reference elem =>
    match elem with
    | .path ident =>
      if ident = "str" then
        "    let " ++ arg.name ++ " = unsafe \x7b std::ffi::CStr::from_ptr(" ++
          arg.name ++ ").to_str().unwrap() \x7d;\n"
      else
        ""
    | _ =>
      "    let " ++ arg.name ++ " = unsafe \x7b std::mem::transmute::<" ++
        arg.extern_c_ty ++ ", _>(" ++ arg.name ++ ") \x7d;\n"
  | .path ident =>
    if ident = "String" then
      "    let " ++ arg.name ++ " = unsafe \x7b std::ffi::CStr::from_ptr(" ++
        arg.name ++ ").to_string_lossy().into_owned() \x7d;\n"
    else
      "    let " ++ arg.name ++ " = unsafe \x7b std::mem::transmute::<" ++
        arg.extern_c_ty ++ ", _>(" ++ arg.name ++ ") \x7d;\n"
  | .other =>
    "    let " ++ arg.name ++ " = unsafe \x7b std::mem::transmute::<" ++
      arg.extern_c_ty ++ ", _>(" ++ arg.name ++ ") \x7d;\n"

/-- The C return type of a function (`void` for `ReturnType::Default`). -/
def cRetType : Option RType → String
  | none => "void"
  | some ty => rust_type_to_c ty

/-- The wrapper return type of a function (`()` for
`ReturnType::Default`). -/
def rustRetType : Option RType → String
  | none => "()"
  | some ty => rust_type_to_rust_extern_c ty

/-- The C header parameter list of generate_c_binding_and_rust_wrapper: the
C types of the arguments chained with one final `void*`. -/
def headerParamTypes (args : List Argument) : List String :=
  args.map (fun a => a.c_ty) ++ ["void*"]

/-- The wrapper parameter list of generate_c_binding_and_rust_wrapper:
`name: extern_c_ty` for each argument, with no extra trailing entry. -/
def wrapperParams (args : List Argument) : List String :=
  args.map (fun a => a.name ++ ": " ++ a.extern_c_ty)

/-- The return handling appended after the call statement: nothing when the
wrapper return type string is `"void"`, the CString heap-allocation pair of
lines when it is `"*mut core::ffi::c_char"`, and a transmute of the result
otherwise.  Note the comparison is against the wrapper (Rust) return type
string, which is `"()"` — not `"void"` — for functions with no declared
return type. -/
def returnPart (rust_ret_type : String) : String :=
  if rust_ret_type ≠ "void" then
    if rust_ret_type = "*mut core::ffi::c_char" then
      "    let result = std::ffi::CString::new(result).unwrap().into_raw();\n" ++
        "    result\n"
    else
      "    unsafe \x7b std::mem::transmute::<_, " ++ rust_ret_type ++
        ">(result) \x7d\n"
  else ""

/-- generate_c_binding_and_rust_wrapper from src/lib.rs: produces the C
header declaration and the Rust wrapper for one function. -/
def generate_c_binding_and_rust_wrapper (name : String) (inputs : List FnArg)
    (output : Option RType) (module_name : String) :
    Option (String × String) :=
  let args := collectArgs inputs
  let ret_type := cRetType output
  let rust_ret_type := rustRetType output
  let c_binding :=
    ret_type ++ " " ++ name ++ "(" ++
      String.intercalate ", " (headerParamTypes args) ++ ");"
  let rust_wrapper :=
    "\n#[no_mangle]\npub extern \"C\" fn " ++ name ++ "(" ++
      String.intercalate ", " (wrapperParams args) ++ ") -> " ++
      rust_ret_type ++ " \x7b\n    use " ++ module_name ++ "::" ++ name ++
      ";\n" ++
    String.join (args.map conversionLine) ++
    ("    let result = " ++ name ++ "(" ++
      String.intercalate ", " (args.map (fun a => a.name)) ++ ");\n") ++
    returnPart rust_ret_type ++
    "\x7d\n"
  some (c_binding, rust_wrapper)

/-- generate_c_struct_field from src/lib.rs: a named field becomes an
indented C field line; a field without an identifier yields `none` and is
dropped by the caller. -/
def generate_c_struct_field (field : StructField) : Option String :=
  match field.ident with
  | none => none
  | some field_name =>
    some ("    " ++ rust_type_to_c field.ty ++ " " ++ field_name ++ ";")

/-- generate_c_struct_binding_and_rust_wrapper from src/lib.rs: the C struct
definition with constructor and destructor declarations, and the Rust
wrapper defining `<snake>_new` and `<snake>_free` (the latter guarded by a
null check). -/
def generate_c_struct_binding_and_rust_wrapper (name : String)
    (fields : List StructField) (mod_name : String) :
    Option (String × String) :=
  let struct_name_c := snakeCase name
  let fieldLines := fields.filterMap generate_c_struct_field
  let c_struct :=
    "typedef struct " ++ struct_name_c ++ " \x7b\n" ++
      String.intercalate "\n" fieldLines ++ "\n\x7d " ++ struct_name_c ++ ";"
  let constructor := struct_name_c ++ "* " ++ struct_name_c ++ "_new();"
  let destructor :=
    "void " ++ struct_name_c ++ "_free(" ++ struct_name_c ++ "* obj);"
  let bindings := c_struct ++ "\n" ++ constructor ++ "\n" ++ destructor
  let rust_struct_wrapper :=
    "\nuse alloc::boxed::Box;\nuse " ++ mod_name ++ "::" ++ name ++
      ";\n\n#[no_mangle]\npub extern \"C\" fn " ++ struct_name_c ++
      "_new() -> *mut " ++ name ++ " \x7b\n    Box::into_raw(Box::new(" ++
      name ++ "::default()))\n\x7d\n\n#[no_mangle]\npub extern \"C\" fn " ++
      struct_name_c ++ "_free(obj: *mut " ++ name ++
      ") \x7b\n    if !obj.is_null() \x7b\n        unsafe \x7b\n" ++
      "            let _ = Box::from_raw(obj);\n        \x7d\n    \x7d\n\x7d\n"
  some (bindings, rust_struct_wrapper)

/-- Result of consulting the file system for one candidate path: the path
does not exist, exists but `fs::read_to_string` fails, reads but
`syn::parse_file` fails, or parses into a declaration list. -/
inductive FileResult where
  | absent
  | unreadable
  | unparsable
  | parsed (items : List Item)

/-- The file system seen by module resolution. -/
def FS : Type := String → FileResult

/-- How a generation run aborts: one of the two `expect` panics of
process_external_mod_and_generate_rust, or exhaustion of the recursion
bound (a modelling artifact: theorems quantify over sufficient fuel). -/
inductive GenError where
  | readFailure
  | parseFailure
  | outOfFuel
deriving DecidableEq, Repr

/-- `Path::join` on our string paths. -/
def pathJoin (base rel : String) : String :=
  base ++ "/" ++ rel

/-- process_external_mod_and_generate_rust from src/lib.rs, parameterized by
the recursive traversal `recur`.  The candidate `<name>.rs` is tried first
and `<name>/mod.rs` second; if neither exists the module is skipped
(`None`); if the chosen file cannot be read or parsed the run aborts; on
success the traversal recurses with base directory = the parent of the
resolved file and the inherited flag forced to true. -/
def process_external_mod_and_generate_rust
    (recur : List Item → String → Bool → String → String →
      Except GenError (String × String))
    (fs : FS) (module_name base_path crate_name mod_name : String) :
    Except GenError (Option (String × String)) :=
  let mod_file_path := pathJoin base_path (module_name ++ ".rs")
  let mod_folder_path := pathJoin base_path (module_name ++ "/mod.rs")
  match fs mod_file_path with
  | .absent =>
    match fs mod_folder_path with
    | .absent => .ok none
    | .unreadable => .error .readFailure
    | .unparsable => .error .parseFailure
    | .parsed items =>
      (recur items (pathJoin base_path module_name) true crate_name
        mod_name).map some
  | .unreadable => .error .readFailure
  | .unparsable => .error .parseFailure
  | .parsed items =>
    (recur items base_path true crate_name mod_name).map some

/-- The per-item dispatch of the traversal loop in
generate_c_api_and_rust_exports: functions and structs are emitted when the
visibility check passes, public modules are recursed into (inline) or
resolved (external), everything else is skipped. -/
def processItem
    (recur : List Item → String → Bool → String → String →
      Except GenError (String × String))
    (fs : FS) (base_path : String) (parent_public : Bool)
    (crate_name mod_name : String) : Item →
    Except GenError (Option (String × String))
  | .fn vis name inputs output =>
    if is_public_function vis parent_public then
      .ok (generate_c_binding_and_rust_wrapper name inputs output mod_name)
    else .ok none
  | .mod vis name content =>
    if is_public_mod vis then
      match content with
      | some items =>
        (recur items base_path true crate_name mod_name).map some
      | none =>
        process_external_mod_and_generate_rust recur fs name base_path
          crate_name mod_name
    else .ok none
  | .structItem vis name fields =>
    if is_public_struct vis parent_public then
      .ok (generate_c_struct_binding_and_rust_wrapper name fields crate_name)
    else .ok none
  | .otherItem => .ok none

/-- The traversal loop: each item contributes at most one fragment to each
of the two accumulators, in source order. -/
def processItems
    (recur : List Item → String → Bool → String → String →
      Except GenError (String × String))
    (fs : FS) (base_path : String) (parent_public : Bool)
    (crate_name mod_name : String) : List Item →
    Except GenError (List String × List String)
  | [] => .ok ([], [])
  | item :: rest => do
    let front ← processItem recur fs base_path parent_public crate_name
      mod_name item
    let (cs, rs) ← processItems recur fs base_path parent_public crate_name
      mod_name rest
    match front with
    | none => .ok (cs, rs)
    | some (c, r) => .ok (c :: cs, r :: rs)

/-- generate_c_api_and_rust_exports from src/lib.rs: snake-cases the crate
and module names, walks the items, and joins the accumulated fragments —
the C side with newlines, the Rust side with newlines after the prefix line
`extern crate alloc;`.  The extra `fuel` bounds module nesting. -/
def generate_c_api_and_rust_exports :
    Nat → FS → List Item → String → Bool → String → String →
    Except GenError (String × String)
  | 0, _, _, _, _, _, _ => .error .outOfFuel
  | fuel + 1, fs, syntax_tree, base_path, parent_public, crate_name,
      mod_name =>
    let crate_name := snakeCase crate_name
    let mod_name := snakeCase mod_name
    match processItems (generate_c_api_and_rust_exports fuel fs) fs base_path
        parent_public crate_name mod_name syntax_tree with
    | .error e => .error e
    | .ok (c_bindings, rust_exports) =>
      .ok (String.intercalate "\n" c_bindings,
        "extern crate alloc;\n" ++ String.intercalate "\n" rust_exports)

/-! ### Helper lemmas about the traversal -/

/-- Unfolding of one successful-fuel step of the traversal. -/
theorem generate_succ (fuel : Nat) (fs : FS) (items : List Item)
    (base_path : String) (pp : Bool) (crate_name mod_name : String) :
    generate_c_api_and_rust_exports (fuel + 1) fs items base_path pp
        crate_name mod_name
      = match processItems (generate_c_api_and_rust_exports fuel fs) fs
            base_path pp (snakeCase crate_name) (snakeCase mod_name) items with
        | .error e => .error e
        | .ok (c_bindings, rust_exports) =>
          .ok (String.intercalate "\n" c_bindings,
            "extern crate alloc;\n" ++ String.intercalate "\n" rust_exports) :=
  rfl

/-- An item whose processing emits nothing leaves the traversal of its
siblings unchanged. -/
theorem processItems_skip {recur} {fs : FS} {bp : String} {pp : Bool}
    {cn mn : String} {i : Item} {rest : List Item}
    (h : processItem recur fs bp pp cn mn i = .ok none) :
    processItems recur fs bp pp cn mn (i :: rest)
      = processItems recur fs bp pp cn mn rest := by
  simp only [processItems, h]
  cases processItems recur fs bp pp cn mn rest with
  | error e => rfl
  | ok p => cases p with
    | mk cs rs => rfl

/-- An item whose processing emits a fragment pair conses it onto the
accumulators produced by its siblings. -/
theorem processItems_push {recur} {fs : FS} {bp : String} {pp : Bool}
    {cn mn : String} {i : Item} {rest : List Item} {c r : String}
    (h : processItem recur fs bp pp cn mn i = .ok (some (c, r))) :
    processItems recur fs bp pp cn mn (i :: rest)
      = match processItems recur fs bp pp cn mn rest with
        | .error e => .error e
        | .ok (cs, rs) => .ok (c :: cs, r :: rs) := by
  simp only [processItems, h]
  cases processItems recur fs bp pp cn mn rest with
  | error e => rfl
  | ok p => cases p with
    | mk cs rs => rfl

/-- An item whose processing aborts aborts the whole traversal. -/
theorem processItems_error {recur} {fs : FS} {bp : String} {pp : Bool}
    {cn mn : String} {i : Item} {rest : List Item} {e : GenError}
    (h : processItem recur fs bp pp cn mn i = .error e) :
    processItems recur fs bp pp cn mn (i :: rest) = .error e := by
  simp only [processItems, h]
  rfl

/-- Intercalating a single string is that string. -/
theorem intercalate_singleton (sep a : String) :
    String.intercalate sep [a] = a := by
  show String.join (List.intersperse sep [a]) = a
  simp [String.join]

/-- Every visibility is exported under a true inherited flag: inside an
entered module even privately-marked functions pass the check. -/
theorem is_public_function_parent_true (vis : Vis) :
    is_public_function vis true = true := by
  cases vis <;> rfl

/-- Every visibility is exported under a true inherited flag: inside an
entered module even privately-marked structs pass the check. -/
theorem is_public_struct_parent_true (vis : Vis) :
    is_public_struct vis true = true := by
  cases vis <;> rfl

/-- A module whose own marker is not public is skipped by the dispatcher,
whatever the inherited flag. -/
theorem processItem_private_mod (recur) (fs : FS) (bp : String) (pp : Bool)
    (cn mn name : String) (content : Option (List Item)) :
    processItem recur fs bp pp cn mn (Item.mod .other name content)
      = .ok none := rfl

/-- A singleton item list that emits one fragment pair produces exactly that
pair, with the wrapper prefixed by the alloc line. -/
theorem generate_single_push {fuel : Nat} {fs : FS} {bp : String} {pp : Bool}
    {cn mn : String} {i : Item} {c r : String}
    (h : processItem (generate_c_api_and_rust_exports fuel fs) fs bp pp
        (snakeCase cn) (snakeCase mn) i = .ok (some (c, r))) :
    generate_c_api_and_rust_exports (fuel + 1) fs [i] bp pp cn mn
      = .ok (c, "extern crate alloc;\n" ++ r) := by
  rw [generate_succ, processItems_push h]
  simp only [processItems]
  rw [intercalate_singleton, intercalate_singleton]

/-! ### C1 — visibility asymmetry -/

/-- C1: a module whose own visibility marker is not public is never
recursed into and contributes nothing to either output, even when the
inherited-export flag is true (first conjunct: the traversal of
`mod :: rest` equals the traversal of `rest` alone, for every inherited
flag, every content and every fuel); and every function or struct declared
directly inside an entered publicly-marked module is exported even when its
own marker is private, because the traversal passes the inherited flag as
true to the children of an entered module (second and third conjuncts:
for an arbitrary member visibility `fvis`/`svis`, the member's fragment
pair is emitted). -/
theorem c1_module_privacy_and_inherited_export :
    (∀ fuel (fs : FS) rest base_path pp crate_name mod_name name content,
      generate_c_api_and_rust_exports fuel fs
          (Item.mod .other name content :: rest) base_path pp crate_name
          mod_name
        = generate_c_api_and_rust_exports fuel fs rest base_path pp crate_name
            mod_name)
    ∧ (∀ fuel (fs : FS) base_path pp crate_name mod_name mname fvis fname
          inputs output, ∃ c w,
        generate_c_binding_and_rust_wrapper fname inputs output
            (snakeCase (snakeCase mod_name)) = some (c, w) ∧
        generate_c_api_and_rust_exports (fuel + 2) fs
            [Item.mod .pub mname (some [Item.fn fvis fname inputs output])]
            base_path pp crate_name mod_name
          = .ok (c, "extern crate alloc;\n" ++ ("extern crate alloc;\n" ++ w)))
    ∧ (∀ fuel (fs : FS) base_path pp crate_name mod_name mname svis sname
          fields, ∃ c w,
        generate_c_struct_binding_and_rust_wrapper sname fields
            (snakeCase (snakeCase crate_name)) = some (c, w) ∧
        generate_c_api_and_rust_exports (fuel + 2) fs
            [Item.mod .pub mname (some [Item.structItem svis sname fields])]
            base_path pp crate_name mod_name
          = .ok (c, "extern crate alloc;\n" ++
              ("extern crate alloc;\n" ++ w))) := by
  refine ⟨?_, ?_, ?_⟩
  · intro fuel fs rest base_path pp crate_name mod_name name content
    cases fuel with
    | zero => rfl
    | succ n =>
      rw [generate_succ, generate_succ,
        processItems_skip (processItem_private_mod _ _ _ _ _ _ _ _)]
  · intro fuel fs base_path pp crate_name mod_name mname fvis fname inputs
      output
    obtain ⟨c, w, hcw⟩ : ∃ c w, generate_c_binding_and_rust_wrapper fname
        inputs output (snakeCase (snakeCase mod_name)) = some (c, w) :=
      ⟨_, _, rfl⟩
    refine ⟨c, w, hcw, ?_⟩
    have hfn : processItem (generate_c_api_and_rust_exports fuel fs) fs
        base_path true (snakeCase (snakeCase crate_name))
        (snakeCase (snakeCase mod_name))
        (Item.fn fvis fname inputs output) = .ok (some (c, w)) := by
      simp only [processItem, is_public_function_parent_true, if_true, hcw]
    have hinner : generate_c_api_and_rust_exports (fuel + 1) fs
        [Item.fn fvis fname inputs output] base_path true
        (snakeCase crate_name) (snakeCase mod_name)
        = .ok (c, "extern crate alloc;\n" ++ w) := generate_single_push hfn
    have hmod : processItem
        (generate_c_api_and_rust_exports (fuel + 1) fs) fs base_path pp
        (snakeCase crate_name) (snakeCase mod_name)
        (Item.mod .pub mname (some [Item.fn fvis fname inputs output]))
        = .ok (some (c, "extern crate alloc;\n" ++ w)) := by
      simp only [processItem, is_public_mod, if_true, hinner]
      rfl
    exact generate_single_push hmod
  · intro fuel fs base_path pp crate_name mod_name mname svis sname fields
    obtain ⟨c, w, hcw⟩ : ∃ c w, generate_c_struct_binding_and_rust_wrapper
        sname fields (snakeCase (snakeCase crate_name)) = some (c, w) :=
      ⟨_, _, rfl⟩
    refine ⟨c, w, hcw, ?_⟩
    have hst : processItem (generate_c_api_and_rust_exports fuel fs) fs
        base_path true (snakeCase (snakeCase crate_name))
        (snakeCase (snakeCase mod_name))
        (Item.structItem svis sname fields) = .ok (some (c, w)) := by
      simp only [processItem, is_public_struct_parent_true, if_true, hcw]
    have hinner : generate_c_api_and_rust_exports (fuel + 1) fs
        [Item.structItem svis sname fields] base_path true
        (snakeCase crate_name) (snakeCase mod_name)
        = .ok (c, "extern crate alloc;\n" ++ w) := generate_single_push hst
    have hmod : processItem
        (generate_c_api_and_rust_exports (fuel + 1) fs) fs base_path pp
        (snakeCase crate_name) (snakeCase mod_name)
        (Item.mod .pub mname (some [Item.structItem svis sname fields]))
        = .ok (some (c, "extern crate alloc;\n" ++ w)) := by
      simp only [processItem, is_public_mod, if_true, hinner]
      rfl
    exact generate_single_push hmod

/-! ### C2 — one extra trailing header parameter -/

/-- C2: for every function exported at the top level, exactly one header
declaration and one wrapper definition are produced (the singleton fragment
pair of the run), both bearing the name of the source function; the header
declaration's parameter list is `headerParamTypes` — the argument C types
chained with one trailing `void*` context slot — and so has exactly one
more entry than the wrapper's parameter list `wrapperParams`, the trailing
opaque-pointer entry appearing only on the header side. -/
theorem c2_header_has_one_extra_param (fuel : Nat) (fs : FS)
    (base_path : String) (pp : Bool) (crate_name mod_name : String)
    (vis : Vis) (name : String) (inputs : List FnArg)
    (output : Option RType)
    (hexp : is_public_function vis pp = true) :
    ∃ c w,
      generate_c_binding_and_rust_wrapper name inputs output
          (snakeCase mod_name) = some (c, w) ∧
      generate_c_api_and_rust_exports (fuel + 1) fs
          [Item.fn vis name inputs output] base_path pp crate_name mod_name
        = .ok (c, "extern crate alloc;\n" ++ w) ∧
      c = cRetType output ++ " " ++ name ++ "(" ++
          String.intercalate ", " (headerParamTypes (collectArgs inputs)) ++
          ");" ∧
      (∃ body,
        w = "\n#[no_mangle]\npub extern \"C\" fn " ++ name ++ "(" ++
            String.intercalate ", " (wrapperParams (collectArgs inputs)) ++
            ") -> " ++ rustRetType output ++ " \x7b\n    use " ++
            snakeCase mod_name ++ "::" ++ name ++ ";\n" ++ body) ∧
      (headerParamTypes (collectArgs inputs)).length
        = (wrapperParams (collectArgs inputs)).length + 1 ∧
      (headerParamTypes (collectArgs inputs)).getLast? = some "void*" := by
  refine ⟨_, _, rfl, ?_, rfl, ⟨?_, ?_⟩, ?_, ?_⟩
  · exact generate_single_push (by
      simp only [processItem, hexp, if_true,
        generate_c_binding_and_rust_wrapper, String.append_assoc])
  · exact String.join ((collectArgs inputs).map conversionLine) ++
      (("    let result = " ++ name ++ "(" ++ String.intercalate ", "
        ((collectArgs inputs).map (fun a => a.name)) ++ ");\n") ++
      (returnPart (rustRetType output) ++ "\x7d\n"))
  · simp only [generate_c_binding_and_rust_wrapper, String.append_assoc]
  · simp [headerParamTypes, wrapperParams]
  · simp [headerParamTypes]

/-- Witness for C2 at a concrete exported function with two parameters. -/
theorem c2_witness :
    is_public_function .pub false = true ∧
    ∃ c w,
      generate_c_binding_and_rust_wrapper "add"
          [.typed "a" (.path "i32"), .typed "b" (.path "i32")]
          (some (.path "i32")) (snakeCase "test_crate") = some (c, w) ∧
      generate_c_api_and_rust_exports 1 (fun _ => .absent)
          [Item.fn .pub "add" [.typed "a" (.path "i32"),
            .typed "b" (.path "i32")] (some (.path "i32"))]
          "." false "test_crate" "test_crate"
        = .ok (c, "extern crate alloc;\n" ++ w) ∧
      c = cRetType (some (.path "i32")) ++ " " ++ "add" ++ "(" ++
          String.intercalate ", " (headerParamTypes (collectArgs
            [.typed "a" (.path "i32"), .typed "b" (.path "i32")])) ++ ");" ∧
      (∃ body,
        w = "\n#[no_mangle]\npub extern \"C\" fn " ++ "add" ++ "(" ++
            String.intercalate ", " (wrapperParams (collectArgs
              [.typed "a" (.path "i32"), .typed "b" (.path "i32")])) ++
            ") -> " ++ rustRetType (some (.path "i32")) ++
            " \x7b\n    use " ++ snakeCase "test_crate" ++ "::" ++ "add" ++
            ";\n" ++ body) ∧
      (headerParamTypes (collectArgs [.typed "a" (.path "i32"),
          .typed "b" (.path "i32")])).length
        = (wrapperParams (collectArgs [.typed "a" (.path "i32"),
            .typed "b" (.path "i32")])).length + 1 ∧
      (headerParamTypes (collectArgs [.typed "a" (.path "i32"),
          .typed "b" (.path "i32")])).getLast? = some "void*" :=
  ⟨rfl, c2_header_has_one_extra_param 0 (fun _ => .absent) "." false
    "test_crate" "test_crate" .pub "add"
    [.typed "a" (.path "i32"), .typed "b" (.path "i32")]
    (some (.path "i32")) rfl⟩

/-! ### C3 — external module resolution -/

/-- C3: for an external module reference (a public module with no inline
body), resolution consults `<name>.rs` first and `<name>/mod.rs` second
relative to the current base directory.  If neither exists the module
contributes nothing and traversal continues with its siblings (first
conjunct); if the first candidate exists but cannot be read or parsed the
whole run aborts with the corresponding fatal error, whatever the second
candidate holds (second and third conjuncts, demonstrating that the first
candidate takes priority); if the first candidate is absent the second one
is consulted, and a read or parse failure there likewise aborts the run
(fourth and fifth conjuncts). -/
theorem c3_external_module_resolution :
    (∀ fuel (fs : FS) rest base_path pp crate_name mod_name mname,
      fs (pathJoin base_path (mname ++ ".rs")) = .absent →
      fs (pathJoin base_path (mname ++ "/mod.rs")) = .absent →
      generate_c_api_and_rust_exports fuel fs
          (Item.mod .pub mname none :: rest) base_path pp crate_name mod_name
        = generate_c_api_and_rust_exports fuel fs rest base_path pp
            crate_name mod_name)
    ∧ (∀ fuel (fs : FS) rest base_path pp crate_name mod_name mname,
      fs (pathJoin base_path (mname ++ ".rs")) = .unreadable →
      generate_c_api_and_rust_exports (fuel + 1) fs
          (Item.mod .pub mname none :: rest) base_path pp crate_name mod_name
        = .error .readFailure)
    ∧ (∀ fuel (fs : FS) rest base_path pp crate_name mod_name mname,
      fs (pathJoin base_path (mname ++ ".rs")) = .unparsable →
      generate_c_api_and_rust_exports (fuel + 1) fs
          (Item.mod .pub mname none :: rest) base_path pp crate_name mod_name
        = .error .parseFailure)
    ∧ (∀ fuel (fs : FS) rest base_path pp crate_name mod_name mname,
      fs (pathJoin base_path (mname ++ ".rs")) = .absent →
      fs (pathJoin base_path (mname ++ "/mod.rs")) = .unreadable →
      generate_c_api_and_rust_exports (fuel + 1) fs
          (Item.mod .pub mname none :: rest) base_path pp crate_name mod_name
        = .error .readFailure)
    ∧ (∀ fuel (fs : FS) rest base_path pp crate_name mod_name mname,
      fs (pathJoin base_path (mname ++ ".rs")) = .absent →
      fs (pathJoin base_path (mname ++ "/mod.rs")) = .unparsable →
      generate_c_api_and_rust_exports (fuel + 1) fs
          (Item.mod .pub mname none :: rest) base_path pp crate_name mod_name
        = .error .parseFailure) := by
  refine ⟨?_, ?_, ?_, ?_, ?_⟩
  · intro fuel fs rest base_path pp crate_name mod_name mname h1 h2
    cases fuel with
    | zero => rfl
    | succ n =>
      have hskip : processItem (generate_c_api_and_rust_exports n fs) fs
          base_path pp (snakeCase crate_name) (snakeCase mod_name)
          (Item.mod .pub mname none) = .ok none := by
        simp only [processItem, is_public_mod, if_true,
          process_external_mod_and_generate_rust, h1, h2]
      rw [generate_succ, generate_succ, processItems_skip hskip]
  · intro fuel fs rest base_path pp crate_name mod_name mname h1
    have herr : processItem (generate_c_api_and_rust_exports fuel fs) fs
        base_path pp (snakeCase crate_name) (snakeCase mod_name)
        (Item.mod .pub mname none) = .error .readFailure := by
      simp only [processItem, is_public_mod, if_true,
        process_external_mod_and_generate_rust, h1]
    rw [generate_succ, processItems_error herr]
  · intro fuel fs rest base_path pp crate_name mod_name mname h1
    have herr : processItem (generate_c_api_and_rust_exports fuel fs) fs
        base_path pp (snakeCase crate_name) (snakeCase mod_name)
        (Item.mod .pub mname none) = .error .parseFailure := by
      simp only [processItem, is_public_mod, if_true,
        process_external_mod_and_generate_rust, h1]
    rw [generate_succ, processItems_error herr]
  · intro fuel fs rest base_path pp crate_name mod_name mname h1 h2
    have herr : processItem (generate_c_api_and_rust_exports fuel fs) fs
        base_path pp (snakeCase crate_name) (snakeCase mod_name)
        (Item.mod .pub mname none) = .error .readFailure := by
      simp only [processItem, is_public_mod, if_true,
        process_external_mod_and_generate_rust, h1, h2]
    rw [generate_succ, processItems_error herr]
  · intro fuel fs rest base_path pp crate_name mod_name mname h1 h2
    have herr : processItem (generate_c_api_and_rust_exports fuel fs) fs
        base_path pp (snakeCase crate_name) (snakeCase mod_name)
        (Item.mod .pub mname none) = .error .parseFailure := by
      simp only [processItem, is_public_mod, if_true,
        process_external_mod_and_generate_rust, h1, h2]
    rw [generate_succ, processItems_error herr]

/-- Witness for C3: a missing module is skipped while its sibling function
is still emitted, and an unreadable module file aborts the run. -/
theorem c3_witness :
    (generate_c_api_and_rust_exports 1 (fun _ => .absent)
        (Item.mod .pub "m" none :: [Item.fn .pub "f" [] none])
        "." false "c" "c"
      = generate_c_api_and_rust_exports 1 (fun _ => .absent)
          [Item.fn .pub "f" [] none] "." false "c" "c")
    ∧ (generate_c_api_and_rust_exports 1 (fun _ => .unreadable)
        (Item.mod .pub "m" none :: []) "." false "c" "c"
      = .error .readFailure) :=
  ⟨c3_external_module_resolution.1 1 (fun _ => .absent)
      [Item.fn .pub "f" [] none] "." false "c" "c" "m" rfl rfl,
    c3_external_module_resolution.2.1 0 (fun _ => .unreadable)
      [] "." false "c" "c" "m" rfl⟩

/-! ### C4 — borrowed-text parameters (corrected) -/

/-- C4 counterexample: the claim states that a `&str` parameter is treated
identically to `String` at the boundary with header type `char*`.  In fact
`rust_type_to_c` only special-cases path types, so the reference type
`&str` falls into the non-path default and its header type is `void*`, not
`char*` (while `String` does get `char*`). -/
theorem c4_counterexample :
    rust_type_to_c (.reference (.path "str")) = "void*" ∧
    rust_type_to_c (.reference (.path "str")) ≠ "char*" ∧
    rust_type_to_c (.path "String") = "char*" :=
  ⟨rfl, by decide, rfl⟩

/-- C4 amended: a `&str` parameter is mapped by the type mapper through the
non-path fallback — header type `void*` and wrapper parameter type `void`,
unlike `String`'s `char*` / `*mut core::ffi::c_char` — but its conversion
statement does treat it as borrowed text: the incoming raw pointer is
turned into a borrowed `&str` view via `CStr::from_ptr(..).to_str()` for
the duration of the call, without copying, whereas `String` parameters get
the copying `to_string_lossy().into_owned()` conversion. -/
theorem c4_str_reference_is_borrowed_view_but_not_char_star (name : String) :
    rust_type_to_c (.reference (.path "str")) = "void*" ∧
    rust_type_to_rust_extern_c (.reference (.path "str")) = "void" ∧
    conversionLine (mkArgument name (.reference (.path "str")))
      = "    let " ++ name ++
        " = unsafe \x7b std::ffi::CStr::from_ptr(" ++ name ++
        ").to_str().unwrap() \x7d;\n" ∧
    conversionLine (mkArgument name (.path "String"))
      = "    let " ++ name ++
        " = unsafe \x7b std::ffi::CStr::from_ptr(" ++ name ++
        ").to_string_lossy().into_owned() \x7d;\n" := by
  refine ⟨rfl, rfl, ?_, ?_⟩ <;> simp [conversionLine, mkArgument]

/-! ### C5 — functions with no return type (corrected) -/

/-- C5 counterexample: for `fn f()` (no declared return type) the claim
says the wrapper body contains nothing after the call statement.  In fact
the generated wrapper contains `unsafe { std::mem::transmute::<_, ()>(result) }`
after the call, because the return-suppression check compares the wrapper
return type string (`"()"` for no return type) against `"void"`. -/
theorem c5_counterexample :
    generate_c_binding_and_rust_wrapper "f" [] none "m"
      = some ("void f(void*);",
        "\n#[no_mangle]\npub extern \"C\" fn f() -> () \x7b\n    use m::f;\n    let result = f();\n    unsafe \x7b std::mem::transmute::<_, ()>(result) \x7d\n\x7d\n") ∧
    generate_c_binding_and_rust_wrapper "f" [] none "m"
      ≠ some ("void f(void*);",
        "\n#[no_mangle]\npub extern \"C\" fn f() -> () \x7b\n    use m::f;\n    let result = f();\n\x7d\n") :=
  ⟨rfl, by decide⟩

/-- C5 amended: for every exported function with no declared return type the
wrapper return type string is `"()"`, so the guard `rust_ret_type != "void"`
passes and one raw-reinterpretation statement
`unsafe { std::mem::transmute::<_, ()>(result) }` is emitted between the
call statement and the closing brace; nothing further after the call is
emitted exactly when the wrapper return type string is `"void"`, which
arises for non-path declared return types such as references, not for
omitted ones (second conjunct shows a reference return type taking the
nothing-further path). -/
theorem c5_none_return_emits_unit_transmute (name : String)
    (inputs : List FnArg) (module_name : String) :
    (∃ c, generate_c_binding_and_rust_wrapper name inputs none module_name
      = some (c,
        "\n#[no_mangle]\npub extern \"C\" fn " ++ name ++ "(" ++
          String.intercalate ", " (wrapperParams (collectArgs inputs)) ++
          ") -> () \x7b\n    use " ++ module_name ++ "::" ++ name ++
          ";\n" ++
        (String.join ((collectArgs inputs).map conversionLine) ++
        (("    let result = " ++ name ++ "(" ++ String.intercalate ", "
            ((collectArgs inputs).map (fun a => a.name)) ++ ");\n") ++
        ("    unsafe \x7b std::mem::transmute::<_, ()>(result) \x7d\n" ++
          "\x7d\n"))))) ∧
    (∀ elem, ∃ c,
      generate_c_binding_and_rust_wrapper name inputs
          (some (.reference elem)) module_name
        = some (c,
          "\n#[no_mangle]\npub extern \"C\" fn " ++ name ++ "(" ++
            String.intercalate ", " (wrapperParams (collectArgs inputs)) ++
            ") -> void \x7b\n    use " ++ module_name ++ "::" ++ name ++
            ";\n" ++
          (String.join ((collectArgs inputs).map conversionLine) ++
          (("    let result = " ++ name ++ "(" ++ String.intercalate ", "
              ((collectArgs inputs).map (fun a => a.name)) ++ ");\n") ++
            "\x7d\n")))) := by
  have hrp : returnPart "()"
      = "    unsafe \x7b std::mem::transmute::<_, ()>(result) \x7d\n" := rfl
  have hrv : returnPart "void" = "" := rfl
  constructor
  · refine ⟨cRetType none ++ " " ++ name ++ "(" ++
      String.intercalate ", " (headerParamTypes (collectArgs inputs)) ++
      ");", ?_⟩
    simp only [generate_c_binding_and_rust_wrapper, rustRetType, hrp,
      String.append_assoc]
    rfl
  · intro elem
    refine ⟨cRetType (some (.reference elem)) ++ " " ++ name ++ "(" ++
      String.intercalate ", " (headerParamTypes (collectArgs inputs)) ++
      ");", ?_⟩
    have hre : rustRetType (some (.reference elem)) = "void" := rfl
    simp only [generate_c_binding_and_rust_wrapper, hre, hrv,
      String.append_assoc, String.append_empty]
    rfl

/-! ### C6 — the type-mapping table (corrected) -/

/-- C6 counterexample: the claim says every named type other than the five
recognized primitives falls back to `<Name>*`.  In fact `Vec` and `Option`
are special-cased to `void*`. -/
theorem c6_counterexample :
    rust_type_to_c (.path "Vec") = "void*" ∧
    rust_type_to_c (.path "Vec") ≠ "Vec*" ∧
    rust_type_to_c (.path "Option") = "void*" ∧
    rust_type_to_c (.path "Option") ≠ "Option*" :=
  ⟨rfl, by decide, rfl, by decide⟩

/-- C6 amended: the full mapping table of the two type mappers — the five
primitive pairs and owned `String` as claimed, plus the two container
special cases `Vec` and `Option` (both `void*` on the header side; note the
`cor:::ffi` typo in `Vec`'s wrapper type, reproduced from the source); any
other named type falls back to `<Name>*` / its own name, and any non-path
type (references and anonymous types) to `void*` / `void`. -/
theorem c6_type_mapper_table :
    (rust_type_to_c (.path "i32") = "int" ∧
      rust_type_to_rust_extern_c (.path "i32") = "i32") ∧
    (rust_type_to_c (.path "f64") = "double" ∧
      rust_type_to_rust_extern_c (.path "f64") = "f64") ∧
    (rust_type_to_c (.path "u32") = "unsigned int" ∧
      rust_type_to_rust_extern_c (.path "u32") = "u32") ∧
    (rust_type_to_c (.path "bool") = "bool" ∧
      rust_type_to_rust_extern_c (.path "bool") = "bool") ∧
    (rust_type_to_c (.path "String") = "char*" ∧
      rust_type_to_rust_extern_c (.path "String")
        = "*mut core::ffi::c_char") ∧
    (rust_type_to_c (.path "Vec") = "void*" ∧
      rust_type_to_rust_extern_c (.path "Vec")
        = "*mut cor:::ffi::c_void") ∧
    (rust_type_to_c (.path "Option") = "void*" ∧
      rust_type_to_rust_extern_c (.path "Option")
        = "*mut core::ffi::c_void") ∧
    (∀ ident : String,
      ident ∉ ["i32", "f64", "u32", "bool", "String", "Vec", "Option"] →
      rust_type_to_c (.path ident) = ident ++ "*" ∧
      rust_type_to_rust_extern_c (.path ident) = ident) ∧
    (∀ elem, rust_type_to_c (.reference elem) = "void*" ∧
      rust_type_to_rust_extern_c (.reference elem) = "void") ∧
    (rust_type_to_c .other = "void*" ∧
      rust_type_to_rust_extern_c .other = "void") := by
  refine ⟨⟨rfl, rfl⟩, ⟨rfl, rfl⟩, ⟨rfl, rfl⟩, ⟨rfl, rfl⟩, ⟨rfl, rfl⟩,
    ⟨rfl, rfl⟩, ⟨rfl, rfl⟩, ?_, fun elem => ⟨rfl, rfl⟩, ⟨rfl, rfl⟩⟩
  intro ident h
  simp only [List.mem_cons, List.not_mem_nil, or_false, not_or] at h
  obtain ⟨h1, h2, h3, h4, h5, h6, h7⟩ := h
  exact ⟨by simp [rust_type_to_c, h1, h2, h3, h4, h5, h6, h7],
    by simp [rust_type_to_rust_extern_c, h1, h2, h3, h4, h5, h6, h7]⟩

/-- Witness for C6's fallback conjunct at the concrete named type
`MyStruct`. -/
theorem c6_witness :
    rust_type_to_c (.path "MyStruct") = "MyStruct" ++ "*" ∧
    rust_type_to_rust_extern_c (.path "MyStruct") = "MyStruct" :=
  c6_type_mapper_table.2.2.2.2.2.2.2.1 "MyStruct" (by decide)

/-! ### C7 — struct bindings for MyStruct -/

/-- C7: running the generator on `pub struct MyStruct { pub x: i32, pub y:
i32 }` (the test_crate fixture) produces a header with struct tag
`my_struct` holding the two `int` fields in declaration order, the
zero-argument constructor declaration `my_struct* my_struct_new();`, and
the one-argument destructor declaration `void my_struct_free(my_struct*
obj);`; the Rust side defines `my_struct_new` as a heap allocation of a
default-initialized instance returned as an owning handle, and
`my_struct_free` as reclaiming the handle inside an `if !obj.is_null()`
guard — so a null handle is left untouched. -/
theorem c7_my_struct_bindings :
    generate_c_api_and_rust_exports 1 (fun _ => .absent)
        [Item.structItem .pub "MyStruct"
          [⟨some "x", .path "i32"⟩, ⟨some "y", .path "i32"⟩]]
        "." false "test_crate" "test_crate"
      = .ok ("typedef struct my_struct \x7b\n    int x;\n    int y;\n\x7d my_struct;\nmy_struct* my_struct_new();\nvoid my_struct_free(my_struct* obj);",
        "extern crate alloc;\n\nuse alloc::boxed::Box;\nuse test_crate::MyStruct;\n\n#[no_mangle]\npub extern \"C\" fn my_struct_new() -> *mut MyStruct \x7b\n    Box::into_raw(Box::new(MyStruct::default()))\n\x7d\n\n#[no_mangle]\npub extern \"C\" fn my_struct_free(obj: *mut MyStruct) \x7b\n    if !obj.is_null() \x7b\n        unsafe \x7b\n            let _ = Box::from_raw(obj);\n        \x7d\n    \x7d\n\x7d\n") := by
  rfl

/-! ### C8 — the wrapper import for nested modules (code bug) -/

/-- C8: the claim says the wrapper re-imports the real function from the
qualified name of the module that directly contains it.  The traversal,
however, passes its own `mod_name` argument unchanged when recursing into a
module (the module's identifier is never appended), so for `pub mod inner
{ pub fn f() {} }` in crate `test_crate` the generated wrapper imports
`use test_crate::f;` — the crate root, not `test_crate::inner` — and the
name `inner` appears nowhere in the output.  (Such a wrapper does not even
compile, since `f` lives at `test_crate::inner::f`.) -/
theorem c8_nested_module_import_names_crate_root :
    generate_c_api_and_rust_exports 2 (fun _ => .absent)
        [Item.mod .pub "inner" (some [Item.fn .pub "f" [] none])]
        "." false "test_crate" "test_crate"
      = .ok ("void f(void*);",
        "extern crate alloc;\nextern crate alloc;\n\n#[no_mangle]\npub extern \"C\" fn f() -> () \x7b\n    use test_crate::f;\n    let result = f();\n    unsafe \x7b std::mem::transmute::<_, ()>(result) \x7d\n\x7d\n") ∧
    ("    use test_crate::f;\n".data <:+:
      "extern crate alloc;\nextern crate alloc;\n\n#[no_mangle]\npub extern \"C\" fn f() -> () \x7b\n    use test_crate::f;\n    let result = f();\n    unsafe \x7b std::mem::transmute::<_, ()>(result) \x7d\n\x7d\n".data) ∧
    ¬ ("inner".data <:+:
      "extern crate alloc;\nextern crate alloc;\n\n#[no_mangle]\npub extern \"C\" fn f() -> () \x7b\n    use test_crate::f;\n    let result = f();\n    unsafe \x7b std::mem::transmute::<_, ()>(result) \x7d\n\x7d\n".data) :=
  ⟨rfl, by decide, by decide⟩

/-! ### C9 — determinism -/

/-- C9: generation is deterministic — two runs over identical declaration
lists, base directory, names and flags, against file systems that agree on
every path (in particular on the contents of every external module file
consulted), produce identical results, so equal inputs give byte-identical
header and wrapper texts. -/
theorem c9_deterministic (fuel : Nat) (fs1 fs2 : FS) (items : List Item)
    (base_path : String) (pp : Bool) (crate_name mod_name : String)
    (h : ∀ p, fs1 p = fs2 p) :
    generate_c_api_and_rust_exports fuel fs1 items base_path pp crate_name
        mod_name
      = generate_c_api_and_rust_exports fuel fs2 items base_path pp
          crate_name mod_name := by
  have : fs1 = fs2 := funext h
  rw [this]

/-- Witness for C9 at a concrete input. -/
theorem c9_witness :
    generate_c_api_and_rust_exports 1 (fun _ => .absent)
        [Item.fn .pub "f" [] none] "." false "c" "c"
      = generate_c_api_and_rust_exports 1 (fun _ => .absent)
          [Item.fn .pub "f" [] none] "." false "c" "c" :=
  c9_deterministic 1 (fun _ => .absent) (fun _ => .absent)
    [Item.fn .pub "f" [] none] "." false "c" "c" (fun _ => rfl)

/-! ### C10 machinery: counting occurrences of the alloc line -/

/-- The line prepended by every invocation of the traversal. -/
def markerLine : String := "extern crate alloc;"

/-- The newline-separated lines of a character list. -/
def splitNL (l : List Char) : List (List Char) := l.splitOn '\n'

/-- Number of whole lines of `s` equal to the marker line
`extern crate alloc;`. -/
def countML (s : String) : Nat := (splitNL s.data).count markerLine.data

/-- The string ends with a newline character. -/
def endsNL (s : String) : Prop := s.data.getLast? = some '\n'

theorem splitNL_nil : splitNL [] = [[]] := rfl

theorem splitNL_cons (c : Char) (l : List Char) :
    splitNL (c :: l)
      = if c = '\n' then [] :: splitNL l
        else (splitNL l).modifyHead (List.cons c) := by
  simp only [splitNL, List.splitOn, List.splitOnP_cons, beq_iff_eq]

theorem splitNL_ne_nil (l : List Char) : splitNL l ≠ [] :=
  List.splitOnP_ne_nil _ l

theorem splitNL_len2 : ∀ a : List Char, 2 ≤ (splitNL (a ++ ['\n'])).length := by
  intro a
  induction a with
  | nil => decide
  | cons c a ih =>
    rw [List.cons_append, splitNL_cons]
    by_cases hc : c = '\n'
    · rw [if_pos hc]
      have := List.length_pos.mpr (splitNL_ne_nil (a ++ ['\n']))
      simp only [List.length_cons]
      omega
    · rw [if_neg hc]
      cases h : splitNL (a ++ ['\n']) with
      | nil => exact absurd h (splitNL_ne_nil _)
      | cons l0 ls =>
        rw [h] at ih
        simp only [List.modifyHead_cons, List.length_cons] at ih ⊢
        omega

theorem splitNL_append_nl :
    ∀ a b : List Char,
      splitNL (a ++ '\n' :: b)
        = (splitNL (a ++ ['\n'])).dropLast ++ splitNL b := by
  intro a
  induction a with
  | nil =>
    intro b
    simp only [List.nil_append, splitNL_cons, if_pos rfl, splitNL_nil]
    rfl
  | cons c a ih =>
    intro b
    by_cases hc : c = '\n'
    · subst hc
      rw [List.cons_append, splitNL_cons, if_pos rfl, ih,
        List.cons_append, splitNL_cons, if_pos rfl,
        List.dropLast_cons_of_ne_nil (splitNL_ne_nil _)]
      rfl
    · rw [List.cons_append, splitNL_cons, if_neg hc, ih,
        List.cons_append, splitNL_cons, if_neg hc]
      have hlen := splitNL_len2 a
      cases h : splitNL (a ++ ['\n']) with
      | nil => exact absurd h (splitNL_ne_nil _)
      | cons l0 ls =>
        cases ls with
        | nil => rw [h] at hlen; simp at hlen
        | cons l1 ls' => simp

theorem mcount_append_nl (a b : List Char) :
    (splitNL (a ++ '\n' :: b)).count markerLine.data
      = (splitNL (a ++ ['\n'])).count markerLine.data
        + (splitNL b).count markerLine.data := by
  rw [splitNL_append_nl, List.count_append]
  have h0 : (splitNL (a ++ ['\n'])).count markerLine.data
      = ((splitNL (a ++ ['\n'])).dropLast).count markerLine.data := by
    conv_lhs => rw [splitNL_append_nl a []]
    rw [List.count_append]
    simp [splitNL_nil, markerLine]
  rw [h0]

theorem endsNL_data {a : String} (h : endsNL a) :
    ∃ w, a.data = w ++ ['\n'] :=
  List.getLast?_eq_some_iff.mp h

theorem countML_append_of_endsNL (a b : String) (h : endsNL a) :
    countML (a ++ b) = countML a + countML b := by
  obtain ⟨w, hw⟩ := endsNL_data h
  simp only [countML, String.data_append, hw]
  rw [List.append_assoc, List.singleton_append, mcount_append_nl]

theorem countML_newline_head (t : String) :
    countML ("\n" ++ t) = countML t := by
  simp only [countML, String.data_append]
  show (splitNL ('\n' :: t.data)).count markerLine.data = _
  rw [splitNL_cons, if_pos rfl, List.count_cons]
  simp [markerLine]

theorem splitNL_chunk {xs : List Char} (h : '\n' ∉ xs) (b : List Char) :
    splitNL (xs ++ '\n' :: b) = xs :: splitNL b := by
  simp only [splitNL, List.splitOn]
  exact List.splitOnP_first _ _ (fun x hx => by
    simp only [beq_iff_eq]
    intro he
    exact h (he ▸ hx)) '\n' (by simp) b

theorem splitNL_single {xs : List Char} (h : '\n' ∉ xs) :
    splitNL xs = [xs] := by
  simp only [splitNL, List.splitOn]
  exact List.splitOnP_eq_single _ _ (fun x hx => by
    simp only [beq_iff_eq]
    intro he
    exact h (he ▸ hx))

theorem countML_marker_line_head (t : String) :
    countML ("extern crate alloc;\n" ++ t) = 1 + countML t := by
  have e : ("extern crate alloc;\n" : String) = markerLine ++ "\n" := rfl
  rw [e, String.append_assoc]
  simp only [countML, String.data_append]
  rw [← List.append_assoc]
  have : markerLine.data ++ "\n".data ++ t.data
      = markerLine.data ++ '\n' :: t.data := by
    rw [List.append_assoc]; rfl
  rw [this, splitNL_chunk (by decide), List.count_cons]
  simp
  omega

theorem endsNL_append (a b : String) (hb : endsNL b) : endsNL (a ++ b) := by
  simp only [endsNL, String.data_append, List.getLast?_append]
  rw [show b.data.getLast? = some '\n' from hb]
  rfl

theorem intercalate_go_append (x z s : String) (l : List String) :
    String.intercalate.go (x ++ z) s l = x ++ String.intercalate.go z s l := by
  induction l generalizing z with
  | nil => rfl
  | cons a as ih =>
    show String.intercalate.go (x ++ z ++ s ++ a) s as = _
    rw [String.append_assoc, String.append_assoc, ih,
      ← String.append_assoc]
    rfl

theorem intercalate_cons₂ (s a b : String) (l : List String) :
    String.intercalate s (a :: b :: l)
      = a ++ (s ++ String.intercalate s (b :: l)) := by
  show String.intercalate.go a s (b :: l) = _
  show String.intercalate.go (a ++ s ++ b) s l = _
  rw [String.append_assoc, intercalate_go_append a (s ++ b) s l,
    intercalate_go_append s b s l]
  rfl

theorem countML_intercalate :
    ∀ rs : List String, (∀ r ∈ rs, endsNL r) →
      countML (String.intercalate "\n" rs) = (rs.map countML).sum := by
  intro rs
  induction rs with
  | nil => intro _; rfl
  | cons r rest ih =>
    intro h
    cases rest with
    | nil => rw [intercalate_singleton]; simp
    | cons r' rs' =>
      rw [intercalate_cons₂,
        countML_append_of_endsNL _ _ (h r (by simp)),
        countML_newline_head,
        ih (fun x hx => h x (by simp [hx]))]
      simp

theorem endsNL_intercalate :
    ∀ rs : List String, rs ≠ [] → (∀ r ∈ rs, endsNL r) →
      endsNL (String.intercalate "\n" rs) := by
  intro rs
  induction rs with
  | nil => intro h; exact absurd rfl h
  | cons r rest ih =>
    intro _ h
    cases rest with
    | nil => rw [intercalate_singleton]; exact h r (by simp)
    | cons r' rs' =>
      rw [intercalate_cons₂]
      exact endsNL_append _ _ (endsNL_append _ _
        (ih (by simp) (fun x hx => h x (by simp [hx]))))

/-- No newline character occurs in the string. -/
def NLFreeS (s : String) : Prop := '\n' ∉ s.data

instance (s : String) : Decidable (NLFreeS s) :=
  inferInstanceAs (Decidable ('\n' ∉ s.data))

/-- Blocks of generated text that cannot contribute a marker line when
prepended to text whose lines avoid the marker. -/
def SafeB (s : String) : Prop :=
  ∀ rest : List Char, markerLine.data ∉ splitNL rest →
    markerLine.data ∉ splitNL (s.data ++ rest)

theorem safeB_empty : SafeB "" := fun _ h => h

theorem safeB_append {a b : String} (ha : SafeB a) (hb : SafeB b) :
    SafeB (a ++ b) := by
  intro rest h
  rw [String.data_append, List.append_assoc]
  exact ha _ (hb _ h)

/-- A block ending at a line boundary is safe as soon as none of its
complete lines is the marker. -/
theorem safeB_of_endsNL {s : String} (h1 : endsNL s)
    (h2 : markerLine.data ∉ (splitNL s.data).dropLast) : SafeB s := by
  intro rest h
  obtain ⟨w, hw⟩ := endsNL_data h1
  rw [hw, List.append_assoc, List.singleton_append, splitNL_append_nl, ← hw]
  rw [List.mem_append]
  rintro (hmem | hmem)
  · exact h2 hmem
  · exact h hmem

/-- One newline-free line different from the marker, closed by its
newline. -/
theorem safeB_line {chunk : String} (hnl : NLFreeS chunk)
    (hne : chunk.data ≠ markerLine.data) : SafeB (chunk ++ "\n") := by
  intro rest h
  rw [String.data_append]
  have e : chunk.data ++ "\n".data ++ rest = chunk.data ++ '\n' :: rest := by
    rw [List.append_assoc]; rfl
  rw [e, splitNL_chunk hnl]
  simp only [List.mem_cons, not_or]
  exact ⟨fun he => hne he.symm, h⟩

theorem countML_eq_zero_of_safeB {s : String} (h : SafeB s) :
    countML s = 0 := by
  rw [countML, List.count_eq_zero]
  have h0 := h [] (by decide)
  rwa [List.append_nil] at h0

theorem nlFree_append {a b : String} (ha : NLFreeS a) (hb : NLFreeS b) :
    NLFreeS (a ++ b) := by
  intro hmem
  rw [String.data_append, List.mem_append] at hmem
  rcases hmem with h | h
  · exact ha h
  · exact hb h

theorem nlFree_intercalate {sep : String} (hsep : NLFreeS sep) :
    ∀ l : List String, (∀ x ∈ l, NLFreeS x) →
      NLFreeS (String.intercalate sep l) := by
  intro l
  induction l with
  | nil => exact fun _ hx => List.not_mem_nil _ hx
  | cons a rest ih =>
    intro h
    cases rest with
    | nil => rw [intercalate_singleton]; exact h a (by simp)
    | cons b l' =>
      rw [intercalate_cons₂]
      exact nlFree_append (h a (by simp))
        (nlFree_append hsep (ih (fun x hx => h x (by simp [hx]))))

/-- Cleanliness of a type node: its path identifier, if any, contains no
newline. -/
def cleanTy : RType → Prop
  | .path ident => NLFreeS ident
  | _ => True

theorem nlFree_rust_type_to_c {ty : RType} (h : cleanTy ty) :
    NLFreeS (rust_type_to_c ty) := by
  cases ty with
  | path ident =>
    have hid : NLFreeS ident := h
    simp only [rust_type_to_c]
    split_ifs <;> first | decide | exact nlFree_append hid (by decide)
  | reference e => exact (by decide : NLFreeS "void*")
  | other => exact (by decide : NLFreeS "void*")

theorem nlFree_rust_type_to_rust_extern_c {ty : RType} (h : cleanTy ty) :
    NLFreeS (rust_type_to_rust_extern_c ty) := by
  cases ty with
  | path ident =>
    have hid : NLFreeS ident := h
    simp only [rust_type_to_rust_extern_c]
    split_ifs <;> first | decide | exact hid
  | reference e => exact (by decide : NLFreeS "void")
  | other => exact (by decide : NLFreeS "void")

theorem toLower_ne_newline {c : Char} (h : c ≠ '\n') : c.toLower ≠ '\n' := by
  unfold Char.toLower
  simp only []
  by_cases hb : c.toNat ≥ 65 ∧ c.toNat ≤ 90
  · rw [if_pos hb]
    intro he
    have hv : ('\n' : Char).toNat = 10 := rfl
    rw [← he] at hv
    have hvalid : (c.toNat + 32).isValidChar := by
      left
      omega
    rw [Char.ofNat, dif_pos hvalid] at hv
    have h2 : (Char.ofNatAux (c.toNat + 32) hvalid).toNat = c.toNat + 32 := by
      simp [Char.ofNatAux, Char.toNat, UInt32.toNat, BitVec.toNat_ofNatLt]
    rw [hv] at h2
    omega
  · rw [if_neg hb]
    exact h

theorem snakeAux_nlFree :
    ∀ (prev : Option Char) (l : List Char), '\n' ∉ l →
      '\n' ∉ snakeAux prev l := by
  intro prev l
  induction l generalizing prev with
  | nil => intro _; simp [snakeAux]
  | cons c cs ih =>
    intro h
    have hc : c ≠ '\n' := fun e => h (by simp [e])
    have hcs : '\n' ∉ cs := fun m => h (by simp [m])
    have hl := toLower_ne_newline hc
    have hl' : ¬('\n' = c.toLower) := fun e => hl e.symm
    have hr1 := ih none hcs
    have hr2 := ih (some c) hcs
    simp only [snakeAux]
    repeat' split
    all_goals simp [List.mem_cons, hl', hr1, hr2]

theorem nlFree_snakeCase {s : String} (h : NLFreeS s) :
    NLFreeS (snakeCase s) :=
  snakeAux_nlFree none s.data h

instance (s : String) : Decidable (endsNL s) :=
  inferInstanceAs (Decidable (_ = _))

theorem head?_append_of_head {s : String} {x : List Char} {c : Char}
    (h : s.data.head? = some c) : (s.data ++ x).head? = some c := by
  cases hd : s.data with
  | nil => rw [hd] at h; cases h
  | cons y ys => rw [hd] at h; simp at h; simp [hd, h]

/-- A line whose first character is not `e` cannot be the marker line. -/
theorem safeB_chunk_line {chunk : String} (hnl : NLFreeS chunk) (c : Char)
    (hc : chunk.data.head? = some c) (hne : c ≠ 'e') :
    SafeB (chunk ++ "\n") :=
  safeB_line hnl (by
    intro he
    rw [he] at hc
    have hm : markerLine.data.head? = some 'e' := rfl
    rw [hm] at hc
    cases hc
    exact hne rfl)

theorem foldl_append_str (x z : String) (l : List String) :
    l.foldl (· ++ ·) (x ++ z) = x ++ l.foldl (· ++ ·) z := by
  induction l generalizing z with
  | nil => rfl
  | cons a as ih =>
    show as.foldl _ ((x ++ z) ++ a) = _
    rw [String.append_assoc, ih]
    rfl

theorem join_cons (a : String) (l : List String) :
    String.join (a :: l) = a ++ String.join l := by
  rw [show String.join (a :: l) = l.foldl (· ++ ·) ("" ++ a) from rfl,
    String.empty_append,
    show String.join l = l.foldl (· ++ ·) "" from rfl,
    ← foldl_append_str a "" l, String.append_empty]

/-- Every conversion statement is empty or one indented line, so it is a
safe block. -/
theorem safeB_conversionLine {a : Argument} (hn : NLFreeS a.name)
    (he : NLFreeS a.extern_c_ty) : SafeB (conversionLine a) := by
  have hgen : SafeB ("    let " ++ a.name ++
      " = unsafe \x7b std::mem::transmute::<" ++ a.extern_c_ty ++
      ", _>(" ++ a.name ++ ") \x7d;\n") := by
    rw [show (") \x7d;\n" : String) = ") \x7d;" ++ "\n" from rfl,
      ← String.append_assoc]
    refine safeB_chunk_line ?_ ' ' ?_ (by decide)
    · repeat' apply nlFree_append
      all_goals first | decide | exact hn | exact he
    · simp only [String.data_append, List.append_assoc]
      exact head?_append_of_head rfl
  rcases hty : a.ty with ident | elem | _
  · simp only [conversionLine, hty]
    by_cases hi : ident = "String"
    · rw [if_pos hi]
      rw [show (").to_string_lossy().into_owned() \x7d;\n" : String)
          = ").to_string_lossy().into_owned() \x7d;" ++ "\n" from rfl,
        ← String.append_assoc]
      refine safeB_chunk_line ?_ ' ' ?_ (by decide)
      · repeat' apply nlFree_append
        all_goals first | decide | exact hn
      · simp only [String.data_append, List.append_assoc]
        exact head?_append_of_head rfl
    · rw [if_neg hi]
      exact hgen
  · rcases elem with eid | e2 | _
    · simp only [conversionLine, hty]
      by_cases hi : eid = "str"
      · rw [if_pos hi]
        rw [show (").to_str().unwrap() \x7d;\n" : String)
            = ").to_str().unwrap() \x7d;" ++ "\n" from rfl,
          ← String.append_assoc]
        refine safeB_chunk_line ?_ ' ' ?_ (by decide)
        · repeat' apply nlFree_append
          all_goals first | decide | exact hn
        · simp only [String.data_append, List.append_assoc]
          exact head?_append_of_head rfl
      · rw [if_neg hi]
        exact safeB_empty
    · simp only [conversionLine, hty]
      exact hgen
    · simp only [conversionLine, hty]
      exact hgen
  · simp only [conversionLine, hty]
    exact hgen

theorem safeB_join_conv (args : List Argument)
    (h : ∀ g ∈ args, NLFreeS g.name ∧ NLFreeS g.extern_c_ty) :
    SafeB (String.join (args.map conversionLine)) := by
  induction args with
  | nil => exact safeB_empty
  | cons a as ih =>
    rw [List.map_cons, join_cons]
    exact safeB_append
      (safeB_conversionLine (h a (by simp)).1 (h a (by simp)).2)
      (ih (fun g hg => h g (by simp [hg])))

theorem safeB_returnPart {rrt : String} (h : NLFreeS rrt) :
    SafeB (returnPart rrt) := by
  unfold returnPart
  split_ifs with h1 h2
  · exact safeB_append (safeB_of_endsNL (by decide) (by decide))
      (safeB_of_endsNL (by decide) (by decide))
  · rw [show (">(result) \x7d\n" : String) = ">(result) \x7d" ++ "\n" from rfl,
      ← String.append_assoc]
    refine safeB_chunk_line ?_ ' ' ?_ (by decide)
    · repeat' apply nlFree_append
      all_goals first | decide | exact h
    · simp only [String.data_append, List.append_assoc]
      exact head?_append_of_head rfl
  · exact safeB_empty

theorem fn_wrapper_blocks (n ca rt mn conv inv ret : String) :
    "\n#[no_mangle]\npub extern \"C\" fn " ++ n ++ "(" ++ ca ++ ") -> " ++
        rt ++ " \x7b\n    use " ++ mn ++ "::" ++ n ++ ";\n" ++ conv ++ inv ++
        ret ++ "\x7d\n"
      = "\n#[no_mangle]\n" ++
        (("pub extern \"C\" fn " ++ n ++ "(" ++ ca ++ ") -> " ++ rt ++
          " \x7b") ++ "\n") ++
        (("    use " ++ mn ++ "::" ++ n ++ ";") ++ "\n") ++
        conv ++ inv ++ ret ++ "\x7d\n" := by
  rw [show ("\n#[no_mangle]\npub extern \"C\" fn " : String)
      = "\n#[no_mangle]\n" ++ "pub extern \"C\" fn " from rfl,
    show (" \x7b\n    use " : String) = " \x7b" ++ ("\n" ++ "    use ")
      from rfl,
    show (";\n" : String) = ";" ++ "\n" from rfl]
  simp only [String.append_assoc]

/-- The wrapper emitted for one function contributes no marker line and
ends at a line boundary. -/
theorem fn_wrapper_count {name : String} {inputs : List FnArg}
    {output : Option RType} {module_name : String}
    (hn : NLFreeS name) (hm : NLFreeS module_name)
    (hargs : ∀ g ∈ collectArgs inputs, NLFreeS g.name ∧ NLFreeS g.extern_c_ty)
    (hrrt : NLFreeS (rustRetType output)) {c w : String}
    (hw : generate_c_binding_and_rust_wrapper name inputs output module_name
      = some (c, w)) :
    countML w = 0 ∧ endsNL w := by
  have hca : NLFreeS
      (String.intercalate ", " (wrapperParams (collectArgs inputs))) := by
    apply nlFree_intercalate (by decide)
    intro x hx
    obtain ⟨g, hg, rfl⟩ := List.mem_map.mp hx
    exact nlFree_append (nlFree_append (hargs g hg).1 (by decide))
      (hargs g hg).2
  have han : NLFreeS (String.intercalate ", "
      ((collectArgs inputs).map (fun a => a.name))) := by
    apply nlFree_intercalate (by decide)
    intro x hx
    obtain ⟨g, hg, rfl⟩ := List.mem_map.mp hx
    exact (hargs g hg).1
  simp only [generate_c_binding_and_rust_wrapper, Option.some.injEq,
    Prod.mk.injEq] at hw
  obtain ⟨-, hwv⟩ := hw
  subst hwv
  constructor
  · apply countML_eq_zero_of_safeB
    rw [fn_wrapper_blocks]
    refine safeB_append (safeB_append (safeB_append (safeB_append
      (safeB_append (safeB_append (safeB_of_endsNL (by decide) (by decide))
        ?_) ?_) ?_) ?_) ?_) (safeB_of_endsNL (by decide) (by decide))
    · refine safeB_chunk_line ?_ 'p' ?_ (by decide)
      · repeat' apply nlFree_append
        all_goals first | decide | exact hn | exact hca | exact hrrt
      · simp only [String.data_append, List.append_assoc]
        exact head?_append_of_head rfl
    · refine safeB_chunk_line ?_ ' ' ?_ (by decide)
      · repeat' apply nlFree_append
        all_goals first | decide | exact hn | exact hm
      · simp only [String.data_append, List.append_assoc]
        exact head?_append_of_head rfl
    · exact safeB_join_conv _ hargs
    · rw [show ((");\n" : String)) = ");" ++ "\n" from rfl,
        ← String.append_assoc]
      refine safeB_chunk_line ?_ ' ' ?_ (by decide)
      · repeat' apply nlFree_append
        all_goals first | decide | exact hn | exact han
      · simp only [String.data_append, List.append_assoc]
        exact head?_append_of_head rfl
    · exact safeB_returnPart hrrt
  · exact endsNL_append _ _ (by decide)

theorem struct_wrapper_blocks (snc n mn : String) :
    "\nuse alloc::boxed::Box;\nuse " ++ mn ++ "::" ++ n ++
        ";\n\n#[no_mangle]\npub extern \"C\" fn " ++ snc ++
        "_new() -> *mut " ++ n ++ " \x7b\n    Box::into_raw(Box::new(" ++
        n ++ "::default()))\n\x7d\n\n#[no_mangle]\npub extern \"C\" fn " ++
        snc ++ "_free(obj: *mut " ++ n ++
        ") \x7b\n    if !obj.is_null() \x7b\n        unsafe \x7b\n" ++
        "            let _ = Box::from_raw(obj);\n        \x7d\n    \x7d\n\x7d\n"
      = "\nuse alloc::boxed::Box;\n" ++
        (("use " ++ mn ++ "::" ++ n ++ ";") ++ "\n") ++
        "\n#[no_mangle]\n" ++
        (("pub extern \"C\" fn " ++ snc ++ "_new() -> *mut " ++ n ++
          " \x7b") ++ "\n") ++
        (("    Box::into_raw(Box::new(" ++ n ++ "::default()))") ++ "\n") ++
        "\x7d\n\n#[no_mangle]\n" ++
        (("pub extern \"C\" fn " ++ snc ++ "_free(obj: *mut " ++ n ++
          ") \x7b") ++ "\n") ++
        "    if !obj.is_null() \x7b\n        unsafe \x7b\n" ++
        "            let _ = Box::from_raw(obj);\n        \x7d\n    \x7d\n\x7d\n" := by
  rw [show ("\nuse alloc::boxed::Box;\nuse " : String)
      = "\nuse alloc::boxed::Box;\n" ++ "use " from rfl,
    show (";\n\n#[no_mangle]\npub extern \"C\" fn " : String)
      = ";" ++ ("\n" ++ ("\n#[no_mangle]\n" ++ "pub extern \"C\" fn "))
      from rfl,
    show (" \x7b\n    Box::into_raw(Box::new(" : String)
      = " \x7b" ++ ("\n" ++ "    Box::into_raw(Box::new(") from rfl,
    show ("::default()))\n\x7d\n\n#[no_mangle]\npub extern \"C\" fn " : String)
      = "::default()))" ++
        ("\n" ++ ("\x7d\n\n#[no_mangle]\n" ++ "pub extern \"C\" fn "))
      from rfl,
    show (") \x7b\n    if !obj.is_null() \x7b\n        unsafe \x7b\n" : String)
      = ") \x7b" ++
        ("\n" ++ "    if !obj.is_null() \x7b\n        unsafe \x7b\n")
      from rfl]
  simp only [String.append_assoc]

/-- The wrapper emitted for one struct contributes no marker line and ends
at a line boundary. -/
theorem struct_wrapper_count {name : String} {fields : List StructField}
    {mod_name : String} (hn : NLFreeS name) (hm : NLFreeS mod_name)
    {c w : String}
    (hw : generate_c_struct_binding_and_rust_wrapper name fields mod_name
      = some (c, w)) :
    countML w = 0 ∧ endsNL w := by
  have hsnc : NLFreeS (snakeCase name) := nlFree_snakeCase hn
  simp only [generate_c_struct_binding_and_rust_wrapper, Option.some.injEq,
    Prod.mk.injEq] at hw
  obtain ⟨-, hwv⟩ := hw
  subst hwv
  constructor
  · apply countML_eq_zero_of_safeB
    rw [struct_wrapper_blocks]
    refine safeB_append (safeB_append (safeB_append (safeB_append
      (safeB_append (safeB_append (safeB_append (safeB_append
        (safeB_of_endsNL (by decide) (by decide)) ?_)
        (safeB_of_endsNL (by decide) (by decide))) ?_) ?_)
        (safeB_of_endsNL (by decide) (by decide))) ?_)
        (safeB_of_endsNL (by decide) (by decide)))
        (safeB_of_endsNL (by decide) (by decide))
    · refine safeB_chunk_line ?_ 'u' ?_ (by decide)
      · repeat' apply nlFree_append
        all_goals first | decide | exact hn | exact hm
      · simp only [String.data_append, List.append_assoc]
        exact head?_append_of_head rfl
    · refine safeB_chunk_line ?_ 'p' ?_ (by decide)
      · repeat' apply nlFree_append
        all_goals first | decide | exact hn | exact hsnc
      · simp only [String.data_append, List.append_assoc]
        exact head?_append_of_head rfl
    · refine safeB_chunk_line ?_ ' ' ?_ (by decide)
      · repeat' apply nlFree_append
        all_goals first | decide | exact hn
      · simp only [String.data_append, List.append_assoc]
        exact head?_append_of_head rfl
    · refine safeB_chunk_line ?_ 'p' ?_ (by decide)
      · repeat' apply nlFree_append
        all_goals first | decide | exact hn | exact hsnc
      · simp only [String.data_append, List.append_assoc]
        exact head?_append_of_head rfl
  · exact endsNL_append _ _ (by decide)

/-- A function input is clean when its rendered pattern name and its type
identifier (if a path type) contain no newline — true of every real parse
tree, where these are identifiers. -/
def CleanArg : FnArg → Prop
  | .receiver => True
  | .typed n t => NLFreeS n ∧ cleanTy t

/-- A return type is clean when its path identifier, if any, contains no
newline. -/
def CleanRet : Option RType → Prop
  | none => True
  | some t => cleanTy t

/-- Items whose embedded names contain no newline characters. -/
inductive CleanItem : Item → Prop where
  | fn {vis : Vis} {name : String} {inputs : List FnArg}
      {output : Option RType} : NLFreeS name → (∀ a ∈ inputs, CleanArg a) →
      CleanRet output → CleanItem (.fn vis name inputs output)
  | modNone {vis : Vis} {name : String} : CleanItem (.mod vis name none)
  | modSome {vis : Vis} {name : String} {items : List Item} :
      (∀ i ∈ items, CleanItem i) → CleanItem (.mod vis name (some items))
  | structI {vis : Vis} {name : String} {fields : List StructField} :
      NLFreeS name → CleanItem (.structItem vis name fields)
  | otherI : CleanItem .otherItem

/-- Every module file the file system delivers parses to clean items. -/
def CleanFS (fs : FS) : Prop :=
  ∀ p items, fs p = .parsed items → ∀ i ∈ items, CleanItem i

theorem nlFree_rustRetType {output : Option RType} (h : CleanRet output) :
    NLFreeS (rustRetType output) := by
  cases output with
  | none => decide
  | some t => exact nlFree_rust_type_to_rust_extern_c h

theorem collectArgs_clean {inputs : List FnArg}
    (h : ∀ a ∈ inputs, CleanArg a) :
    ∀ g ∈ collectArgs inputs, NLFreeS g.name ∧ NLFreeS g.extern_c_ty := by
  induction inputs with
  | nil => intro g hg; simp [collectArgs] at hg
  | cons a as ih =>
    intro g hg
    cases a with
    | receiver =>
      rw [collectArgs] at hg
      exact ih (fun x hx => h x (by simp [hx])) g hg
    | typed n t =>
      rw [collectArgs] at hg
      rcases List.mem_cons.mp hg with hg | hg
      · subst hg
        have ha := h (.typed n t) (by simp)
        exact ⟨ha.1, nlFree_rust_type_to_rust_extern_c ha.2⟩
      · exact ih (fun x hx => h x (by simp [hx])) g hg

/-- The per-item module count of one traversal step: an entered module
counts itself plus its children, counted by `rec` (the count at one less
fuel); everything else counts zero.  External modules mirror the
resolution order of process_external_mod_and_generate_rust. -/
def ecItemsF (rec : List Item → String → Nat) (fs : FS) (bp : String) :
    List Item → Nat
  | [] => 0
  | i :: rest =>
    (match i with
     | .mod .pub _ (some its) => 1 + rec its bp
     | .mod .pub name none =>
       (match fs (pathJoin bp (name ++ ".rs")) with
        | .parsed its => 1 + rec its bp
        | .absent =>
          (match fs (pathJoin bp (name ++ "/mod.rs")) with
           | .parsed its => 1 + rec its (pathJoin bp name)
           | _ => 0)
        | _ => 0)
     | _ => 0) + ecItemsF rec fs bp rest

/-- The number of modules entered by
`generate_c_api_and_rust_exports fuel fs items bp _ _ _`. -/
def enteredCount : Nat → FS → String → List Item → Nat
  | 0, _, _, _ => 0
  | fuel + 1, fs, bp, items =>
    ecItemsF (fun its bp' => enteredCount fuel fs bp' its) fs bp items

theorem processItems_countML (fuel : Nat) (fs : FS) (hfs : CleanFS fs)
    (IH : ∀ its bp pp cn mn c r, (∀ i ∈ its, CleanItem i) → NLFreeS cn →
      NLFreeS mn →
      generate_c_api_and_rust_exports fuel fs its bp pp cn mn = .ok (c, r) →
      countML r = enteredCount fuel fs bp its + 1 ∧ endsNL r) :
    ∀ items bp pp cn mn cs rs, (∀ i ∈ items, CleanItem i) → NLFreeS cn →
      NLFreeS mn →
      processItems (generate_c_api_and_rust_exports fuel fs) fs bp pp cn mn
        items = .ok (cs, rs) →
      (∀ r ∈ rs, endsNL r) ∧
        (rs.map countML).sum
          = ecItemsF (fun its bp' => enteredCount fuel fs bp' its) fs bp
              items := by
  intro items
  induction items with
  | nil =>
    intro bp pp cn mn cs rs _ _ _ h
    simp only [processItems, Except.ok.injEq, Prod.mk.injEq] at h
    obtain ⟨h1, h2⟩ := h
    subst h1; subst h2
    exact ⟨fun r hr => absurd hr (List.not_mem_nil r), rfl⟩
  | cons i rest ih =>
    intro bp pp cn mn cs rs hcl hcn hmn h
    have hcli : CleanItem i := hcl i (by simp)
    have hclr : ∀ j ∈ rest, CleanItem j := fun j hj => hcl j (by simp [hj])
    cases i with
    | fn vis name inputs output =>
      have hinfo : NLFreeS name ∧ (∀ a ∈ inputs, CleanArg a) ∧
          CleanRet output := by
        cases hcli with
        | fn h1 h2 h3 => exact ⟨h1, h2, h3⟩
      by_cases hp : is_public_function vis pp = true
      · obtain ⟨cb, w, hcw⟩ : ∃ cb w,
            generate_c_binding_and_rust_wrapper name inputs output mn
              = some (cb, w) := ⟨_, _, rfl⟩
        have hpi : processItem (generate_c_api_and_rust_exports fuel fs) fs
            bp pp cn mn (Item.fn vis name inputs output)
            = .ok (some (cb, w)) := by
          simp [processItem, hp, hcw]
        rw [processItems_push hpi] at h
        cases hrest : processItems (generate_c_api_and_rust_exports fuel fs)
            fs bp pp cn mn rest with
        | error e => rw [hrest] at h; cases h
        | ok p =>
          obtain ⟨cs', rs'⟩ := p
          rw [hrest] at h
          simp only [Except.ok.injEq, Prod.mk.injEq] at h
          obtain ⟨h1, h2⟩ := h
          subst h1; subst h2
          have hw := fn_wrapper_count hinfo.1 hmn
            (collectArgs_clean hinfo.2.1) (nlFree_rustRetType hinfo.2.2) hcw
          obtain ⟨hend, hsum⟩ := ih bp pp cn mn cs' rs' hclr hcn hmn hrest
          refine ⟨?_, ?_⟩
          · intro r hr
            rcases List.mem_cons.mp hr with hr | hr
            · subst hr; exact hw.2
            · exact hend r hr
          · simp only [List.map_cons, List.sum_cons, hw.1, hsum, ecItemsF]
      · have hpi : processItem (generate_c_api_and_rust_exports fuel fs) fs
            bp pp cn mn (Item.fn vis name inputs output) = .ok none := by
          simp [processItem, hp]
        rw [processItems_skip hpi] at h
        obtain ⟨hend, hsum⟩ := ih bp pp cn mn cs rs hclr hcn hmn h
        exact ⟨hend, by simp only [hsum, ecItemsF]; omega⟩
    | mod vis name content =>
      cases vis with
      | other =>
        rw [processItems_skip (processItem_private_mod _ _ _ _ _ _ _ _)] at h
        obtain ⟨hend, hsum⟩ := ih bp pp cn mn cs rs hclr hcn hmn h
        refine ⟨hend, ?_⟩
        rw [hsum]
        simp only [ecItemsF]
        omega
      | pub =>
        cases content with
        | some its =>
          have hits : ∀ j ∈ its, CleanItem j := by
            cases hcli with
            | modSome h' => exact h'
          cases hg : generate_c_api_and_rust_exports fuel fs its bp true cn
              mn with
          | error e =>
            have hpi : processItem (generate_c_api_and_rust_exports fuel fs)
                fs bp pp cn mn (Item.mod .pub name (some its))
                = .error e := by
              simp [processItem, is_public_mod, hg, Except.map]
            rw [processItems_error hpi] at h
            cases h
          | ok p =>
            obtain ⟨c', r'⟩ := p
            have hpi : processItem (generate_c_api_and_rust_exports fuel fs)
                fs bp pp cn mn (Item.mod .pub name (some its))
                = .ok (some (c', r')) := by
              simp [processItem, is_public_mod, hg, Except.map]
            rw [processItems_push hpi] at h
            cases hrest : processItems
                (generate_c_api_and_rust_exports fuel fs) fs bp pp cn mn
                rest with
            | error e => rw [hrest] at h; cases h
            | ok p2 =>
              obtain ⟨cs', rs'⟩ := p2
              rw [hrest] at h
              simp only [Except.ok.injEq, Prod.mk.injEq] at h
              obtain ⟨h1, h2⟩ := h
              subst h1; subst h2
              have hwr := IH its bp true cn mn c' r' hits hcn hmn hg
              obtain ⟨hend, hsum⟩ := ih bp pp cn mn cs' rs' hclr hcn hmn
                hrest
              refine ⟨?_, ?_⟩
              · intro r hr
                rcases List.mem_cons.mp hr with hr | hr
                · subst hr; exact hwr.2
                · exact hend r hr
              · simp only [List.map_cons, List.sum_cons, hwr.1, hsum,
                  ecItemsF]
                omega
        | none =>
          cases hf1 : fs (pathJoin bp (name ++ ".rs")) with
          | parsed its =>
            have hits := hfs _ _ hf1
            cases hg : generate_c_api_and_rust_exports fuel fs its bp true
                cn mn with
            | error e =>
              have hpi : processItem
                  (generate_c_api_and_rust_exports fuel fs) fs bp pp cn mn
                  (Item.mod .pub name none) = .error e := by
                simp [processItem, is_public_mod,
                  process_external_mod_and_generate_rust,
                  hf1, hg, Except.map]
              rw [processItems_error hpi] at h
              cases h
            | ok p =>
              obtain ⟨c', r'⟩ := p
              have hpi : processItem
                  (generate_c_api_and_rust_exports fuel fs) fs bp pp cn mn
                  (Item.mod .pub name none) = .ok (some (c', r')) := by
                simp [processItem, is_public_mod,
                  process_external_mod_and_generate_rust,
                  hf1, hg, Except.map]
              rw [processItems_push hpi] at h
              cases hrest : processItems
                  (generate_c_api_and_rust_exports fuel fs) fs bp pp cn mn
                  rest with
              | error e => rw [hrest] at h; cases h
              | ok p2 =>
                obtain ⟨cs', rs'⟩ := p2
                rw [hrest] at h
                simp only [Except.ok.injEq, Prod.mk.injEq] at h
                obtain ⟨h1, h2⟩ := h
                subst h1; subst h2
                have hwr := IH its bp true cn mn c' r' hits hcn hmn hg
                obtain ⟨hend, hsum⟩ := ih bp pp cn mn cs' rs' hclr hcn hmn
                  hrest
                refine ⟨?_, ?_⟩
                · intro r hr
                  rcases List.mem_cons.mp hr with hr | hr
                  · subst hr; exact hwr.2
                  · exact hend r hr
                · simp only [List.map_cons, List.sum_cons, hwr.1, hsum,
                    ecItemsF, hf1]
                  omega
          | absent =>
            cases hf2 : fs (pathJoin bp (name ++ "/mod.rs")) with
            | parsed its =>
              have hits := hfs _ _ hf2
              cases hg : generate_c_api_and_rust_exports fuel fs its
                  (pathJoin bp name) true cn mn with
              | error e =>
                have hpi : processItem
                    (generate_c_api_and_rust_exports fuel fs) fs bp pp cn mn
                    (Item.mod .pub name none) = .error e := by
                  simp [processItem, is_public_mod,
                  process_external_mod_and_generate_rust,
                    hf1, hf2, hg, Except.map]
                rw [processItems_error hpi] at h
                cases h
              | ok p =>
                obtain ⟨c', r'⟩ := p
                have hpi : processItem
                    (generate_c_api_and_rust_exports fuel fs) fs bp pp cn mn
                    (Item.mod .pub name none) = .ok (some (c', r')) := by
                  simp [processItem, is_public_mod,
                  process_external_mod_and_generate_rust,
                    hf1, hf2, hg, Except.map]
                rw [processItems_push hpi] at h
                cases hrest : processItems
                    (generate_c_api_and_rust_exports fuel fs) fs bp pp cn mn
                    rest with
                | error e => rw [hrest] at h; cases h
                | ok p2 =>
                  obtain ⟨cs', rs'⟩ := p2
                  rw [hrest] at h
                  simp only [Except.ok.injEq, Prod.mk.injEq] at h
                  obtain ⟨h1, h2⟩ := h
                  subst h1; subst h2
                  have hwr := IH its (pathJoin bp name) true cn mn c' r'
                    hits hcn hmn hg
                  obtain ⟨hend, hsum⟩ := ih bp pp cn mn cs' rs' hclr hcn
                    hmn hrest
                  refine ⟨?_, ?_⟩
                  · intro r hr
                    rcases List.mem_cons.mp hr with hr | hr
                    · subst hr; exact hwr.2
                    · exact hend r hr
                  · simp only [List.map_cons, List.sum_cons, hwr.1, hsum,
                      ecItemsF, hf1, hf2]
                    omega
            | absent =>
              have hpi : processItem
                  (generate_c_api_and_rust_exports fuel fs) fs bp pp cn mn
                  (Item.mod .pub name none) = .ok none := by
                simp [processItem, is_public_mod,
                  process_external_mod_and_generate_rust,
                  hf1, hf2]
              rw [processItems_skip hpi] at h
              obtain ⟨hend, hsum⟩ := ih bp pp cn mn cs rs hclr hcn hmn h
              refine ⟨hend, ?_⟩
              rw [hsum]
              simp only [ecItemsF, hf1, hf2]
              omega
            | unreadable =>
              have hpi : processItem
                  (generate_c_api_and_rust_exports fuel fs) fs bp pp cn mn
                  (Item.mod .pub name none) = .error .readFailure := by
                simp [processItem, is_public_mod,
                  process_external_mod_and_generate_rust,
                  hf1, hf2]
              rw [processItems_error hpi] at h
              cases h
            | unparsable =>
              have hpi : processItem
                  (generate_c_api_and_rust_exports fuel fs) fs bp pp cn mn
                  (Item.mod .pub name none) = .error .parseFailure := by
                simp [processItem, is_public_mod,
                  process_external_mod_and_generate_rust,
                  hf1, hf2]
              rw [processItems_error hpi] at h
              cases h
          | unreadable =>
            have hpi : processItem (generate_c_api_and_rust_exports fuel fs)
                fs bp pp cn mn (Item.mod .pub name none)
                = .error .readFailure := by
              simp [processItem, is_public_mod,
                  process_external_mod_and_generate_rust, hf1]
            rw [processItems_error hpi] at h
            cases h
          | unparsable =>
            have hpi : processItem (generate_c_api_and_rust_exports fuel fs)
                fs bp pp cn mn (Item.mod .pub name none)
                = .error .parseFailure := by
              simp [processItem, is_public_mod,
                  process_external_mod_and_generate_rust, hf1]
            rw [processItems_error hpi] at h
            cases h
    | structItem vis name fields =>
      have hname : NLFreeS name := by
        cases hcli with
        | structI h1 => exact h1
      by_cases hp : is_public_struct vis pp = true
      · obtain ⟨cb, w, hcw⟩ : ∃ cb w,
            generate_c_struct_binding_and_rust_wrapper name fields cn
              = some (cb, w) := ⟨_, _, rfl⟩
        have hpi : processItem (generate_c_api_and_rust_exports fuel fs) fs
            bp pp cn mn (Item.structItem vis name fields)
            = .ok (some (cb, w)) := by
          simp [processItem, hp, hcw]
        rw [processItems_push hpi] at h
        cases hrest : processItems (generate_c_api_and_rust_exports fuel fs)
            fs bp pp cn mn rest with
        | error e => rw [hrest] at h; cases h
        | ok p =>
          obtain ⟨cs', rs'⟩ := p
          rw [hrest] at h
          simp only [Except.ok.injEq, Prod.mk.injEq] at h
          obtain ⟨h1, h2⟩ := h
          subst h1; subst h2
          have hw := struct_wrapper_count hname hcn hcw
          obtain ⟨hend, hsum⟩ := ih bp pp cn mn cs' rs' hclr hcn hmn hrest
          refine ⟨?_, ?_⟩
          · intro r hr
            rcases List.mem_cons.mp hr with hr | hr
            · subst hr; exact hw.2
            · exact hend r hr
          · simp only [List.map_cons, List.sum_cons, hw.1, hsum, ecItemsF]
      · have hpi : processItem (generate_c_api_and_rust_exports fuel fs) fs
            bp pp cn mn (Item.structItem vis name fields) = .ok none := by
          simp [processItem, hp]
        rw [processItems_skip hpi] at h
        obtain ⟨hend, hsum⟩ := ih bp pp cn mn cs rs hclr hcn hmn h
        exact ⟨hend, by simp only [hsum, ecItemsF]; omega⟩
    | otherItem =>
      have hpi : processItem (generate_c_api_and_rust_exports fuel fs) fs
          bp pp cn mn Item.otherItem = .ok none := rfl
      rw [processItems_skip hpi] at h
      obtain ⟨hend, hsum⟩ := ih bp pp cn mn cs rs hclr hcn hmn h
      exact ⟨hend, by simp only [hsum, ecItemsF]; omega⟩

/-- For every successful run, the wrapper output contains the marker line
once for the invocation itself plus once per entered module. -/
theorem generate_countML :
    ∀ (fuel : Nat) (fs : FS), CleanFS fs →
      ∀ items bp pp cn mn c r, (∀ i ∈ items, CleanItem i) → NLFreeS cn →
        NLFreeS mn →
        generate_c_api_and_rust_exports fuel fs items bp pp cn mn
          = .ok (c, r) →
        countML r = enteredCount fuel fs bp items + 1 ∧ endsNL r := by
  intro fuel
  induction fuel with
  | zero =>
    intro fs _ items bp pp cn mn c r _ _ _ h
    cases h
  | succ fuel ihf =>
    intro fs hfs items bp pp cn mn c r hcl hcn hmn h
    rw [generate_succ] at h
    cases hpi : processItems (generate_c_api_and_rust_exports fuel fs) fs bp
        pp (snakeCase cn) (snakeCase mn) items with
    | error e => rw [hpi] at h; cases h
    | ok p =>
      obtain ⟨cs, rs⟩ := p
      rw [hpi] at h
      simp only [Except.ok.injEq, Prod.mk.injEq] at h
      obtain ⟨-, hr⟩ := h
      subst hr
      obtain ⟨hend, hsum⟩ := processItems_countML fuel fs hfs
        (fun its bp' pp' cn' mn' c' r' hits hcn' hmn' hg =>
          ihf fs hfs its bp' pp' cn' mn' c' r' hits hcn' hmn' hg)
        items bp pp (snakeCase cn) (snakeCase mn) cs rs hcl
        (nlFree_snakeCase hcn) (nlFree_snakeCase hmn) hpi
      constructor
      · rw [countML_marker_line_head, countML_intercalate rs hend, hsum]
        show 1 + _ = ecItemsF _ fs bp items + 1
        omega
      · cases rs with
        | nil =>
          rw [show String.intercalate "\n" ([] : List String) = "" from rfl,
            String.append_empty]
          decide
        | cons r0 rs' =>
          exact endsNL_append _ _
            (endsNL_intercalate _ (by simp) hend)

/-! ### C10 — the alloc prefix line -/

/-- C10: every invocation of the traversal prepends the line
`extern crate alloc;` to the wrapper text it returns — every successful
result's wrapper text starts with that line (first conjunct); for an empty
top-level declaration list the wrapper output is exactly
`extern crate alloc;\n` while the header output is the empty string
(second conjunct); and for a tree in which N modules are entered
(`enteredCount`, which counts each inline or resolvable external public
module entered by the run), the final wrapper output contains exactly
N + 1 occurrences of that line, counted as whole lines (`countML`), for
every input whose names are newline-free — as all real Rust identifiers
are (third conjunct). -/
theorem c10_alloc_line_prefix_and_count :
    (∀ fuel (fs : FS) items bp pp cn mn c r,
      generate_c_api_and_rust_exports fuel fs items bp pp cn mn
        = .ok (c, r) →
      ∃ t, r = "extern crate alloc;\n" ++ t)
    ∧ (∀ fuel (fs : FS) bp pp cn mn,
      generate_c_api_and_rust_exports (fuel + 1) fs [] bp pp cn mn
        = .ok ("", "extern crate alloc;\n"))
    ∧ (∀ fuel (fs : FS) items bp pp cn mn c r,
      CleanFS fs → (∀ i ∈ items, CleanItem i) → NLFreeS cn → NLFreeS mn →
      generate_c_api_and_rust_exports fuel fs items bp pp cn mn
        = .ok (c, r) →
      countML r = enteredCount fuel fs bp items + 1) := by
  refine ⟨?_, ?_, ?_⟩
  · intro fuel fs items bp pp cn mn c r h
    cases fuel with
    | zero => cases h
    | succ n =>
      rw [generate_succ] at h
      cases hpi : processItems (generate_c_api_and_rust_exports n fs) fs bp
          pp (snakeCase cn) (snakeCase mn) items with
      | error e => rw [hpi] at h; cases h
      | ok p =>
        obtain ⟨cs, rs⟩ := p
        rw [hpi] at h
        simp only [Except.ok.injEq, Prod.mk.injEq] at h
        exact ⟨String.intercalate "\n" rs, h.2.symm⟩
  · intro fuel fs bp pp cn mn
    rw [generate_succ]
    show Except.ok (String.intercalate "\n" [],
      "extern crate alloc;\n" ++ String.intercalate "\n" []) = _
    rw [show String.intercalate "\n" ([] : List String) = "" from rfl,
      String.append_empty]
  · intro fuel fs items bp pp cn mn c r hfs hcl hcn hmn h
    exact (generate_countML fuel fs hfs items bp pp cn mn c r hcl hcn hmn
      h).1

/-- Witness for C10 at a concrete tree with one entered module: the
wrapper holds the marker line twice, and the empty-input equation holds at
concrete arguments. -/
theorem c10_witness :
    countML "extern crate alloc;\nextern crate alloc;\n\n#[no_mangle]\npub extern \"C\" fn f() -> () \x7b\n    use test_crate::f;\n    let result = f();\n    unsafe \x7b std::mem::transmute::<_, ()>(result) \x7d\n\x7d\n"
      = enteredCount 2 (fun _ => .absent) "."
          [Item.mod .pub "inner" (some [Item.fn .pub "f" [] none])] + 1
    ∧ generate_c_api_and_rust_exports 1 (fun _ => .absent) [] "." false
        "test_crate" "test_crate" = .ok ("", "extern crate alloc;\n") := by
  constructor
  · refine c10_alloc_line_prefix_and_count.2.2 2 (fun _ => .absent)
      [Item.mod .pub "inner" (some [Item.fn .pub "f" [] none])]
      "." false "test_crate" "test_crate" "void f(void*);" _
      (fun p its hp => by cases hp) ?_ (by decide) (by decide) (by rfl)
    intro i hi
    rw [List.mem_singleton.mp hi]
    exact CleanItem.modSome (fun j hj => by
      rw [List.mem_singleton.mp hj]
      exact CleanItem.fn (by decide) (fun a ha => absurd ha
        (List.not_mem_nil a)) trivial)
  · exact c10_alloc_line_prefix_and_count.2.1 0 (fun _ => .absent) "."
      false "test_crate" "test_crate"

end Cbt
